import Mathlib

/-!
Verification of the GitHub crawler API client layer
(`src/Crawl_data/graphql_client.py`): a shallow embedding of
`GitHubGraphQLClient.rotate_key`, `execute_query` and `paginate_query`
together with the Python value semantics (truthiness, `in`, subscript,
`.get`, `str()`) that these functions rely on, and proofs of the spec's
testable properties over that embedding.
-/

set_option maxRecDepth 10000

namespace Crawler

/-- JSON values, the shape of `response.json()` results and of the
`variables` payloads flowing through the client. -/
inductive J where
| null : J
| bool : Bool → J
| num : Int → J
| str : String → J
| arr : List J → J
| obj : List (String × J) → J
deriving Repr, BEq

/-- Python truthiness (`if x:`) for JSON-shaped values: `None`, `False`,
`0`, `""`, `[]`, `{}` are falsy and everything else truthy. -/
def pyTruthy : J → Bool
| .null => false
| .bool b => b
| .num n => n != 0
| .str s => !s.isEmpty
| .arr xs => !xs.isEmpty
| .obj fs => !fs.isEmpty

/-- Check whether the character list `hay` starts with `needle`. -/
def leadsWith : List Char → List Char → Bool
| [], _ => true
| _ :: _, [] => false
| a :: as, b :: bs => a == b && leadsWith as bs

/-- Check whether `needle` occurs contiguously inside `hay`
(the Python `needle in hay` test on strings). -/
def hasSub (needle : List Char) : List Char → Bool
| [] => leadsWith needle []
| b :: bs => leadsWith needle (b :: bs) || hasSub needle bs

/-- Python substring containment `needle in hay` on strings. -/
def strHas (hay needle : String) : Bool :=
hasSub needle.toList hay.toList

/-- Python `s.lower()` on the ASCII strings this client inspects. -/
def lowerStr (s : String) : String :=
String.mk (s.toList.map Char.toLower)

mutual

/-- Python `repr` of a JSON value, as produced inside `str()` of a
container: `None`/`True`/`False`, decimal integers, quoted strings,
and bracketed containers. -/
def pyRepr : J → String
| .null => "None"
| .bool true => "True"
| .bool false => "False"
| .num n => toString n
| .str s => "'" ++ s ++ "'"
| .arr xs => "[" ++ pyReprList xs ++ "]"
| .obj fs => "\x7b" ++ pyReprFields fs ++ "\x7d"

/-- Comma-separated `repr`s of the elements of a Python list. -/
def pyReprList : List J → String
| [] => ""
| [x] => pyRepr x
| x :: xs => pyRepr x ++ ", " ++ pyReprList xs

/-- Comma-separated `repr`s of the items of a Python dict. -/
def pyReprFields : List (String × J) → String
| [] => ""
| [(k, v)] => "'" ++ k ++ "': " ++ pyRepr v
| (k, v) :: fs => "'" ++ k ++ "': " ++ pyRepr v ++ ", " ++ pyReprFields fs

end

/-- Python `str()` of a JSON value: a string renders as itself, every
other value renders as its `repr`. -/
def pyStr : J → String
| .str s => s
| v => pyRepr v

/-- Python `k in v` for a string key `k`: key test on dicts, membership
test on lists, substring test on strings; raises `TypeError` (modelled
as `.error ()`) on `None`, booleans and numbers. -/
def pyIn (k : String) : J → Except Unit Bool
| .obj fs => .ok (fs.any (fun p => p.1 == k))
| .arr xs => .ok (xs.any (fun x => x == J.str k))
| .str s => .ok (strHas s k)
| _ => .error ()

/-- Python `v[k]` for a string key `k`: dict lookup (raising `KeyError`
when absent), `TypeError` on every other shape. -/
def pySub (k : String) : J → Except Unit J
| .obj fs =>
  match fs.find? (fun p => p.1 == k) with
  | some p => .ok p.2
  | none => .error ()
| _ => .error ()

/-- Python `v.get(k, dflt)`: only dicts have a `.get` method, every
other shape raises `AttributeError`. -/
def pyGet (k : String) (dflt : J) : J → Except Unit J
| .obj fs =>
  match fs.find? (fun p => p.1 == k) with
  | some p => .ok p.2
  | none => .ok dflt
| _ => .error ()

/-- Python dict assignment `d[k] = v` on an insertion-ordered dict:
replaces the value in place when the key exists, appends otherwise. -/
def setKey (k : String) (v : J) : List (String × J) → List (String × J)
| [] => [(k, v)]
| (k', v') :: rest => if k' == k then (k, v) :: rest else (k', v') :: setKey k v rest

/-- Python iteration `for x in v`: lists yield their elements, dicts
their keys, strings their characters; `None`, booleans and numbers
raise `TypeError`. -/
def pyIter : J → Except Unit (List J)
| .arr xs => .ok xs
| .obj fs => .ok (fs.map (fun p => J.str p.1))
| .str s => .ok (s.toList.map (fun c => J.str (String.singleton c)))
| _ => .error ()

/-- Short-circuiting Python `any(f(x) for x in xs)` where evaluating
`f` may raise. -/
def anyExc (f : J → Except Unit Bool) : List J → Except Unit Bool
| [] => .ok false
| e :: es =>
  match f e with
  | .error u => .error u
  | .ok true => .ok true
  | .ok false => anyExc f es

/-- Test `'FORBIDDEN' in str(err.get('type', ''))` from
`execute_query` line 129. -/
def errHasForbidden (e : J) : Except Unit Bool :=
match pyGet "type" (J.str "") e with
| .error u => .error u
| .ok t => .ok (strHas (pyStr t) "FORBIDDEN")

/-- Test `'permission' in str(err.get('message', '')).lower()` from
`execute_query` line 130. -/
def errHasPermission (e : J) : Except Unit Bool :=
match pyGet "message" (J.str "") e with
| .error u => .error u
| .ok m => .ok (strHas (lowerStr (pyStr m)) "permission")

/-- Outcome of the HTTP-200 branch of `execute_query`
(lines 122-152). -/
inductive H200 where
| retData : H200
| retNone : H200
| rateLimitRetry : H200
| timeoutRetry : H200
deriving Repr, BEq

/-- The HTTP-200 error-classification logic of `execute_query`
(lines 125-152): authorization-marker errors return the body (or `None`
without `data`); `rate limit` messages rotate-and-retry; `timeout`
messages backoff-and-retry; everything else falls through to
`return data` at line 152, as does a body without `errors`. -/
def classify200 (body : J) : Except Unit H200 :=
match pyIn "errors" body with
| .error u => .error u
| .ok false => .ok .retData
| .ok true =>
  match pySub "errors" body with
  | .error u => .error u
  | .ok errs =>
    match pyIter errs with
    | .error u => .error u
    | .ok errList =>
      match anyExc errHasForbidden errList with
      | .error u => .error u
      | .ok hf =>
        match anyExc errHasPermission errList with
        | .error u => .error u
        | .ok hp =>
          if hf || hp then
            match pyIn "data" body with
            | .error u => .error u
            | .ok true => .ok .retData
            | .ok false => .ok .retNone
          else
            if strHas (lowerStr (pyStr errs)) "rate limit" then .ok .rateLimitRetry
            else if strHas (lowerStr (pyStr errs)) "timeout" then .ok .timeoutRetry
            else .ok .retData

/-- Outcome of one data POST as seen by `execute_query`: a raised
`requests` timeout, a raised connection error, any other raised
exception, or an HTTP response with a status code and JSON body. -/
inductive PostResult where
| timeoutExc : PostResult
| connExc : PostResult
| otherExc : PostResult
| resp : Nat → J → PostResult

/-- The network environment of one `execute_query` call: the remaining
quota reported by the single `check_rate_limit` snapshot, the outcome
of the i-th data POST, and the `random.randint(0, 10)` jitter drawn
if the i-th POST yields a 5xx response. -/
structure Env where
  snapshotRemaining : Nat
  posts : Nat → PostResult
  jitter : Nat → Nat

/-- Observable effects of an `execute_query` call: data POSTs issued,
rate-limit snapshots taken, key rotations performed, and the backoff
sleeps in seconds (the fixed 1-second pause inside `rotate_key` is not
a backoff and is not recorded here). -/
structure Trace where
  postsMade : Nat
  snapshotChecks : Nat
  rotations : Nat
  waits : List Nat
deriving Repr, BEq

/-- Result of an `execute_query` call: the returned value (`none` is
Python `None`), the effect trace and the final active key index. -/
structure ExecOut where
  result : Option J
  tr : Trace
  keyIdx : Nat
deriving Repr, BEq

/-- Backoff for `requests` timeouts and connection errors
(lines 187-197): `min(30, 2 ** retry_count)`. -/
def connWait (rc : Nat) : Nat := min 30 (2 ^ rc)

/-- Backoff for 5xx server errors (line 176):
`min(60, 2 ** retry_count + random.randint(0, 10))`. -/
def serverWait (rc jitter : Nat) : Nat := min 60 (2 ^ rc + jitter)

/-- Backoff for quota exhaustion with no spare key
(lines 103 and 169): `min(300, 2 ** retry_count)`. -/
def quotaWait (rc : Nat) : Nat := min 300 (2 ^ rc)

/-- One loop iteration of `execute_query` after the first-attempt quota
gate: issue the POST at index `pIdx` and either terminate (`done`) or
continue with an incremented retry count (`again`). -/
inductive Step where
| done : Option J → Trace → Nat → Step
| again : Nat → Nat → Nat → Trace → Step

/-- The POST-and-classify part of the `execute_query` loop body
(lines 108-202): one data POST, then the 200/401/403/5xx/other handling
and the three exception handlers. -/
def execPost (env : Env) (numKeys : Nat) (rc kIdx pIdx : Nat) (tr : Trace) : Step :=
let tr1 : Trace := { tr with postsMade := tr.postsMade + 1 }
match env.posts pIdx with
| .timeoutExc => .again (rc + 1) kIdx (pIdx + 1) { tr1 with waits := tr1.waits ++ [connWait rc] }
| .connExc => .again (rc + 1) kIdx (pIdx + 1) { tr1 with waits := tr1.waits ++ [connWait rc] }
| .otherExc => .again (rc + 1) kIdx (pIdx + 1) { tr1 with waits := tr1.waits ++ [2 ^ (rc + 1)] }
| .resp s body =>
  if s == 200 then
    match classify200 body with
    | .error _ => .again (rc + 1) kIdx (pIdx + 1) { tr1 with waits := tr1.waits ++ [2 ^ (rc + 1)] }
    | .ok .retData => .done (some body) tr1 kIdx
    | .ok .retNone => .done none tr1 kIdx
    | .ok .rateLimitRetry =>
      if numKeys ≤ 1 then .again (rc + 1) kIdx (pIdx + 1) tr1
      else .again (rc + 1) ((kIdx + 1) % numKeys) (pIdx + 1) { tr1 with rotations := tr1.rotations + 1 }
    | .ok .timeoutRetry => .again (rc + 1) kIdx (pIdx + 1) { tr1 with waits := tr1.waits ++ [2 ^ (rc + 1)] }
  else if s == 401 then
    if numKeys ≤ 1 then .done none tr1 kIdx
    else .again (rc + 1) ((kIdx + 1) % numKeys) (pIdx + 1) { tr1 with rotations := tr1.rotations + 1 }
  else if s == 403 then
    if numKeys ≤ 1 then .again (rc + 1) kIdx (pIdx + 1) { tr1 with waits := tr1.waits ++ [quotaWait rc] }
    else .again (rc + 1) ((kIdx + 1) % numKeys) (pIdx + 1) { tr1 with rotations := tr1.rotations + 1 }
  else if 500 ≤ s then
    .again (rc + 1) kIdx (pIdx + 1) { tr1 with waits := tr1.waits ++ [serverWait rc (env.jitter pIdx)] }
  else
    .again (rc + 1) kIdx (pIdx + 1) { tr1 with waits := tr1.waits ++ [2 ^ (rc + 1)] }

/-- The `while retry_count < max_retries` loop of `execute_query`
(lines 93-205), with `fuel = max_retries - retry_count`: on the first
attempt only, take a rate-limit snapshot and, if the remaining quota is
below the threshold, rotate (or wait `quotaWait` and skip the POST when
the pool has no spare key); then run `execPost`. Exhausted fuel is the
loop exit, returning `None` (line 205). -/
def execLoop (env : Env) (threshold numKeys : Nat) :
    Nat → Nat → Nat → Nat → Trace → ExecOut
| 0, _, kIdx, _, tr => ⟨none, tr, kIdx⟩
| fuel + 1, rc, kIdx, pIdx, tr =>
  let interp : Step → ExecOut := fun st =>
    match st with
    | .done res tr' k => ⟨res, tr', k⟩
    | .again rc' k' p' tr' => execLoop env threshold numKeys fuel rc' k' p' tr'
  if rc == 0 then
    let tr0 : Trace := { tr with snapshotChecks := tr.snapshotChecks + 1 }
    if env.snapshotRemaining < threshold then
      if numKeys ≤ 1 then
        execLoop env threshold numKeys fuel (rc + 1) kIdx pIdx
          { tr0 with waits := tr0.waits ++ [quotaWait rc] }
      else
        interp (execPost env numKeys rc ((kIdx + 1) % numKeys) pIdx
          { tr0 with rotations := tr0.rotations + 1 })
    else
      interp (execPost env numKeys rc kIdx pIdx tr0)
  else
    interp (execPost env numKeys rc kIdx pIdx tr)

/-- `GitHubGraphQLClient.execute_query` (lines 87-205) for a client
whose active key index starts at 0: runs the retry loop with
`retry_count = 0` and an empty trace. -/
def execute_query (env : Env) (threshold numKeys maxRetries : Nat) : ExecOut :=
execLoop env threshold numKeys maxRetries 0 0 0 ⟨0, 0, 0, []⟩

/-- `GitHubGraphQLClient.rotate_key` (lines 76-85) over the pool size
and active index: no-op returning `false` on pools of at most one key,
otherwise advance the index modulo the pool size and return `true`. -/
def rotate_key (numKeys idx : Nat) : Bool × Nat :=
if numKeys ≤ 1 then (false, idx) else (true, (idx + 1) % numKeys)

/-- Result of a `paginate_query` run: the accumulated page payloads,
the final state of the caller's `variables` dict, the final value of
the `cursor` loop variable, the number of `execute_query` calls issued,
and (as ghost instrumentation) the list of cursors written into the
`variables` dict, in write order. -/
structure PagOut where
  pages : List J
  vars : List (String × J)
  cursor : J
  fetches : Nat
  writes : List J
deriving Repr, BEq

/-- Lines 219-220 of `paginate_query`: `if cursor: variables['after'] = cursor`,
writing a truthy cursor into the caller's `variables` dict in place. -/
def cursorWrite (cursor : J) (vars : List (String × J)) : List (String × J) :=
if pyTruthy cursor then setKey "after" cursor vars else vars

/-- Walk `page_info_data` along `page_info_path` (lines 242-247):
each step tests `key in page_info_data` (which may raise) and descends
via subscript; a missing key yields `none`, the Python
`has_next = False; break`. -/
def walkPath : List String → J → Except Unit (Option J)
| [], v => .ok (some v)
| k :: ks, v =>
  match pyIn k v with
  | .error u => .error u
  | .ok true =>
    match pySub k v with
    | .error u => .error u
    | .ok v' => walkPath ks v'
  | .ok false => .ok none

/-- The post-append bookkeeping of a successful page (lines 240-253):
walk the path, then read `pageInfo.hasNextPage` (Python truthiness,
default `False`) and `pageInfo.endCursor` (default `None`); on a broken
walk or missing `pageInfo` the loop flag becomes `false` and the cursor
keeps its previous value. Returns `(has_next, cursor)`. -/
def pageStep (path : List String) (dataVal : J) (cursor : J) : Except Unit (Bool × J) :=
match walkPath path dataVal with
| .error u => .error u
| .ok none => .ok (false, cursor)
| .ok (some p) =>
  match pyIn "pageInfo" p with
  | .error u => .error u
  | .ok false => .ok (false, cursor)
  | .ok true =>
    match pySub "pageInfo" p with
    | .error u => .error u
    | .ok info =>
      match pyGet "hasNextPage" (J.bool false) info with
      | .error u => .error u
      | .ok hn =>
        match pyGet "endCursor" J.null info with
        | .error u => .error u
        | .ok ec => .ok (pyTruthy hn, ec)

/-- The `while` guard of `paginate_query` (line 217) apart from
`has_next`: `max_pages is None or page_count < max_pages`. -/
def pagGuard (maxPages : Option Nat) (pageCount : Nat) : Bool :=
match maxPages with
| none => true
| some m => pageCount < m

/-- The `paginate_query` loop (lines 217-259) over an abstract fetcher
`fetch` giving the result of the i-th `execute_query` call. Each
iteration writes a truthy cursor into the `variables` dict, fetches,
and either counts a failure (breaking after 3 consecutive ones),
raises (`.error`, a `TypeError` escaping to the caller), or appends the
page and recomputes `has_next`/`cursor`. Exhausted fuel exits the loop
with the accumulated state. -/
def pagLoop (fetch : Nat → Option J) (path : List String) (maxPages : Option Nat) :
    Nat → Bool → J → Nat → Nat → List (String × J) → List J → Nat → List J → Except Unit PagOut
| 0, _, cursor, _, _, vars, acc, fIdx, ws => .ok ⟨acc, vars, cursor, fIdx, ws⟩
| fuel + 1, hasNext, cursor, pageCount, consecFail, vars, acc, fIdx, ws =>
  if hasNext && pagGuard maxPages pageCount then
    let vars' := cursorWrite cursor vars
    let ws' := if pyTruthy cursor then ws ++ [cursor] else ws
    let fail : Except Unit PagOut :=
      if 3 ≤ consecFail + 1 then .ok ⟨acc, vars', cursor, fIdx + 1, ws'⟩
      else pagLoop fetch path maxPages fuel hasNext cursor pageCount (consecFail + 1) vars' acc (fIdx + 1) ws'
    match fetch fIdx with
    | none => fail
    | some v =>
      if !pyTruthy v then fail
      else
        match pyIn "data" v with
        | .error u => .error u
        | .ok false => fail
        | .ok true =>
          match pySub "data" v with
          | .error u => .error u
          | .ok dataVal =>
            match pageStep path dataVal cursor with
            | .error u => .error u
            | .ok (hasNext', cursor') =>
              pagLoop fetch path maxPages fuel hasNext' cursor' (pageCount + 1) 0 vars' (acc ++ [v]) (fIdx + 1) ws'
  else
    .ok ⟨acc, vars, cursor, fIdx, ws⟩

/-- `GitHubGraphQLClient.paginate_query` (lines 207-261) over an
abstract fetcher: starts with `has_next = True`, `cursor = None`,
`page_count = 0`, `consecutive_failures = 0` and the caller's
`variables` dict. -/
def paginate_query (fetch : Nat → Option J) (path : List String)
    (maxPages : Option Nat) (vars : List (String × J)) (fuel : Nat) : Except Unit PagOut :=
pagLoop fetch path maxPages fuel true J.null 0 0 vars [] 0 []

/-- The fetch at index `i` when usable by `paginate_query`: a truthy
result that passes the `'data' in result` test. -/
def usableAt (fetch : Nat → Option J) (i : Nat) : Option J :=
match fetch i with
| none => none
| some v =>
  if pyTruthy v then
    match pyIn "data" v with
    | .ok true => some v
    | _ => none
  else none

/-- The usable fetch results with indices in `[lo, lo + n)`, in index
order. -/
def usableIn (fetch : Nat → Option J) : Nat → Nat → List J
| _, 0 => []
| lo, n + 1 =>
  match usableAt fetch lo with
  | some v => v :: usableIn fetch (lo + 1) n
  | none => usableIn fetch (lo + 1) n

/-- Iterate `rotate_key` `n` times on a pool of `numKeys` keys starting
from active index `idx`. -/
def rotateN (numKeys : Nat) : Nat → Nat → Nat
| 0, idx => idx
| n + 1, idx => rotateN numKeys n (rotate_key numKeys idx).2

/-- The fetch at index `i` counts as a clean pagination failure: it is
`None`, falsy, or truthy but failing the `'data' in result` test
without raising. -/
def failsAt (fetch : Nat → Option J) (i : Nat) : Bool :=
match fetch i with
| none => true
| some v =>
  if pyTruthy v then
    match pyIn "data" v with
    | .ok false => true
    | _ => false
  else true

/-- The fetch result cannot make the success path of `paginate_query`
raise: it is `None`, a clean failure, or a usable page whose `data`
member and `pageInfo` navigation stay within dict/list/string shapes. -/
def fetchSafe (path : List String) : Option J → Bool
| none => true
| some v =>
  if pyTruthy v then
    match pyIn "data" v with
    | .error _ => false
    | .ok false => true
    | .ok true =>
      match pySub "data" v with
      | .error _ => false
      | .ok dv =>
        match pageStep path dv J.null with
        | .ok _ => true
        | .error _ => false
  else true

/-- Lookup in the insertion-ordered dict model (Python `d.get(k)` on
the `variables` dict). -/
def getKey (k : String) (fs : List (String × J)) : Option J :=
(fs.find? (fun p => p.1 == k)).map (fun p => p.2)

/-! Theorems. -/

lemma rotate_key_of_two_le {N : Nat} (h : 2 ≤ N) (idx : Nat) :
    rotate_key N idx = (true, (idx + 1) % N) := by
  have h' : ¬ N ≤ 1 := by omega
  simp [rotate_key, h']

lemma rotateN_lt (N : Nat) (_hN : 1 ≤ N) : ∀ n idx, idx < N → rotateN N n idx < N := by
  intro n
  induction n with
  | zero => intro idx h; simpa [rotateN] using h
  | succ n ih =>
    intro idx h
    have hstep : (rotate_key N idx).2 < N := by
      by_cases hle : N ≤ 1
      · simpa [rotate_key, hle] using h
      · simp only [rotate_key, hle, if_false]
        exact Nat.mod_lt _ (by omega)
    simpa [rotateN] using ih _ hstep

lemma rotateN_eq_mod (N : Nat) (hN : 2 ≤ N) : ∀ n idx, idx < N → rotateN N n idx = (idx + n) % N := by
  intro n
  induction n with
  | zero => intro idx h; simp [rotateN, Nat.mod_eq_of_lt h]
  | succ n ih =>
    intro idx h
    have hrot : (rotate_key N idx).2 = (idx + 1) % N := by
      rw [rotate_key_of_two_le hN]
    have hlt : (idx + 1) % N < N := Nat.mod_lt _ (by omega)
    calc rotateN N (n + 1) idx = rotateN N n ((idx + 1) % N) := by rw [rotateN, hrot]
    _ = ((idx + 1) % N + n) % N := ih _ hlt
    _ = (idx + 1 + n) % N := Nat.mod_add_mod _ _ _
    _ = (idx + (n + 1)) % N := by ring_nf

/-- C4: for every credential pool of size `N ≥ 1` and every active index
`idx < N`, rotating `N` times returns to the original active index,
every number of rotations keeps the active index inside `[0, N)`, and
on a single-key pool `rotate_key` returns `false` and leaves the index
unchanged. -/
theorem rotate_key_circular (N idx : Nat) (hN : 1 ≤ N) (hidx : idx < N) :
    rotateN N N idx = idx ∧
    (∀ n, rotateN N n idx < N) ∧
    (N = 1 → rotate_key N idx = (false, idx)) := by
  refine ⟨?_, fun n => rotateN_lt N hN n idx hidx, ?_⟩

  · by_cases h2 : 2 ≤ N
    · rw [rotateN_eq_mod N h2 N idx hidx, Nat.add_mod_right]
      exact Nat.mod_eq_of_lt hidx
    · have hN1 : N = 1 := by omega
      subst hN1
      have hidx0 : idx = 0 := by omega
      subst hidx0
      rfl
  · intro h1
    subst h1
    have hidx0 : idx = 0 := by omega
    subst hidx0
    rfl

/-- Witness for C4 at a pool of three keys with active index 1. -/
theorem rotate_key_circular_witness :
    rotateN 3 3 1 = 1 ∧ (∀ n, rotateN 3 n 1 < 3) ∧ (3 = 1 → rotate_key 3 1 = (false, 1)) :=
rotate_key_circular 3 1 (by decide) (by decide)

/-- C6: within one `execute_query` call, each failure class's backoff
wait is monotonically non-decreasing in the retry count (for every
fixed jitter draw) and never exceeds the class cap: 30s for
connection/timeout errors, 60s for server errors, 300s for quota
exhaustion. -/
theorem backoff_monotone_and_capped (r1 r2 j : Nat) (h : r1 ≤ r2) :
    (connWait r1 ≤ connWait r2 ∧ connWait r2 ≤ 30) ∧
    (serverWait r1 j ≤ serverWait r2 j ∧ serverWait r2 j ≤ 60) ∧
    (quotaWait r1 ≤ quotaWait r2 ∧ quotaWait r2 ≤ 300) := by
  have hpow : 2 ^ r1 ≤ 2 ^ r2 := Nat.pow_le_pow_right (by omega) h
  refine ⟨⟨?_, ?_⟩, ⟨?_, ?_⟩, ⟨?_, ?_⟩⟩
  · exact min_le_min (le_refl 30) hpow
  · exact min_le_left _ _
  · exact min_le_min (le_refl 60) (Nat.add_le_add_right hpow j)
  · exact min_le_left _ _
  · exact min_le_min (le_refl 300) hpow
  · exact min_le_left _ _

/-- Witness for C6 at retry counts 1 and 3 with jitter 7. -/
theorem backoff_monotone_and_capped_witness :
    (1 : Nat) ≤ 3 ∧
    ((connWait 1 ≤ connWait 3 ∧ connWait 3 ≤ 30) ∧
     (serverWait 1 7 ≤ serverWait 3 7 ∧ serverWait 3 7 ≤ 60) ∧
     (quotaWait 1 ≤ quotaWait 3 ∧ quotaWait 3 ≤ 300)) :=
⟨by decide, backoff_monotone_and_capped 1 3 7 (by decide)⟩

lemma classify200_marker {body errs : J} {errList : List J} {bf bp bd : Bool}
    (he : pyIn "errors" body = .ok true)
    (hsub : pySub "errors" body = .ok errs)
    (hiter : pyIter errs = .ok errList)
    (hf : anyExc errHasForbidden errList = .ok bf)
    (hp : anyExc errHasPermission errList = .ok bp)
    (hmark : bf || bp = true)
    (hd : pyIn "data" body = .ok bd) :
    classify200 body = .ok (if bd then H200.retData else H200.retNone) := by
  cases bf <;> cases bp <;> cases bd <;>
    simp_all [classify200, he, hsub, hiter, hf, hp, hd]

lemma classify200_other {body errs : J} {errList : List J}
    (he : pyIn "errors" body = .ok true)
    (hsub : pySub "errors" body = .ok errs)
    (hiter : pyIter errs = .ok errList)
    (hf : anyExc errHasForbidden errList = .ok false)
    (hp : anyExc errHasPermission errList = .ok false)
    (hrl : strHas (lowerStr (pyStr errs)) "rate limit" = false)
    (hto : strHas (lowerStr (pyStr errs)) "timeout" = false) :
    classify200 body = .ok .retData := by
  simp [classify200, he, hsub, hiter, hf, hp, hrl, hto]

lemma execPost_done200 {env : Env} {numKeys rc kIdx pIdx : Nat} {tr : Trace}
    {body : J} {res : Option J}
    (hpost : env.posts pIdx = .resp 200 body)
    (hc : classify200 body = .ok .retData ∧ res = some body ∨
          classify200 body = .ok .retNone ∧ res = none) :
    execPost env numKeys rc kIdx pIdx tr =
      .done res { tr with postsMade := tr.postsMade + 1 } kIdx := by
  rcases hc with ⟨hc, rfl⟩ | ⟨hc, rfl⟩ <;> simp [execPost, hpost, hc]

lemma execLoop_terminal200 {env : Env} {threshold numKeys rc kIdx pIdx fuel : Nat} {tr : Trace}
    {body : J} {res : Option J}
    (hpost : env.posts pIdx = .resp 200 body)
    (hc : classify200 body = .ok .retData ∧ res = some body ∨
          classify200 body = .ok .retNone ∧ res = none)
    (hgate : rc ≠ 0 ∨ threshold ≤ env.snapshotRemaining ∨ 2 ≤ numKeys) :
    (execLoop env threshold numKeys (fuel + 1) rc kIdx pIdx tr).result = res ∧
    (execLoop env threshold numKeys (fuel + 1) rc kIdx pIdx tr).tr.postsMade = tr.postsMade + 1 := by
  by_cases hrc : rc = 0
  · subst hrc
    by_cases hlow : env.snapshotRemaining < threshold
    · have hkeys : 2 ≤ numKeys := by
        rcases hgate with h | h | h
        · exact absurd rfl h
        · omega
        · exact h
      have hk1 : ¬ numKeys ≤ 1 := by omega
      rw [execLoop]
      simp only [hlow, hk1, beq_self_eq_true, if_true, if_false]
      rw [execPost_done200 hpost hc]
      simp
    · rw [execLoop]
      simp only [hlow, beq_self_eq_true, if_true, if_false]
      rw [execPost_done200 hpost hc]
      simp
  · have hbeq : (rc == 0) = false := by simp [hrc]
    rw [execLoop]
    simp only [hbeq, Bool.false_eq_true, if_false]
    rw [execPost_done200 hpost hc]
    simp

/-- C1: a 200 response whose `errors` carry an authorization marker
(a type containing `FORBIDDEN` or a message containing `permission`)
and which also carries a `data` field is returned by `execute_query`
exactly as received — the whole response, hence its `data` portion,
unchanged — terminating the call at the current retry count with no
further request issued beyond the one that produced it. -/
theorem partial_success_with_markers_returned
    (env : Env) (threshold numKeys rc kIdx pIdx fuel : Nat) (tr : Trace)
    (body errs : J) (errList : List J) (bf bp : Bool)
    (hpost : env.posts pIdx = .resp 200 body)
    (he : pyIn "errors" body = .ok true)
    (hsub : pySub "errors" body = .ok errs)
    (hiter : pyIter errs = .ok errList)
    (hf : anyExc errHasForbidden errList = .ok bf)
    (hp : anyExc errHasPermission errList = .ok bp)
    (hmark : bf || bp = true)
    (hd : pyIn "data" body = .ok true)
    (hgate : rc ≠ 0 ∨ threshold ≤ env.snapshotRemaining ∨ 2 ≤ numKeys) :
    (execLoop env threshold numKeys (fuel + 1) rc kIdx pIdx tr).result = some body ∧
    (execLoop env threshold numKeys (fuel + 1) rc kIdx pIdx tr).tr.postsMade = tr.postsMade + 1 := by
  have hc : classify200 body = .ok .retData := by
    simpa using classify200_marker he hsub hiter hf hp hmark hd
  exact execLoop_terminal200 hpost (Or.inl ⟨hc, rfl⟩) hgate

/-- A FORBIDDEN-typed error object, used by the C1 witness. -/
def c1Err : J := J.obj [("type", J.str "FORBIDDEN"), ("message", J.str "x")]

/-- A 200 response carrying both partial data and a FORBIDDEN error,
used by the C1 witness. -/
def c1Body : J := J.obj [("data", J.obj [("user", J.null)]), ("errors", J.arr [c1Err])]

/-- An environment whose first data POST yields `c1Body` with ample
quota, used by the C1 witness. -/
def c1Env : Env := ⟨5000, fun _ => .resp 200 c1Body, fun _ => 0⟩

/-- Witness for C1: a response with partial data and one FORBIDDEN
error, on the first attempt with ample quota. -/
theorem partial_success_with_markers_returned_witness :
    (execLoop c1Env 100 2 (4 + 1) 0 0 0 ⟨0, 0, 0, []⟩).result = some c1Body ∧
    (execLoop c1Env 100 2 (4 + 1) 0 0 0 ⟨0, 0, 0, []⟩).tr.postsMade = (Trace.mk 0 0 0 []).postsMade + 1 :=
partial_success_with_markers_returned c1Env 100 2 0 0 0 4 ⟨0, 0, 0, []⟩ c1Body
  (J.arr [c1Err]) [c1Err] true false rfl rfl rfl rfl rfl rfl rfl rfl
  (Or.inr (Or.inl (by decide)))

/-- C2: a 200 response whose `errors` carry an authorization marker and
which has no `data` field makes `execute_query` return Python `None`
(`Option.none`), a value distinct from every real success (every real
success, the empty dict included, is returned as `some v`), terminating
the call immediately: no retry is consumed beyond the single request
that produced the response. -/
theorem marker_errors_without_data_yield_none
    (env : Env) (threshold numKeys rc kIdx pIdx fuel : Nat) (tr : Trace)
    (body errs : J) (errList : List J) (bf bp : Bool)
    (hpost : env.posts pIdx = .resp 200 body)
    (he : pyIn "errors" body = .ok true)
    (hsub : pySub "errors" body = .ok errs)
    (hiter : pyIter errs = .ok errList)
    (hf : anyExc errHasForbidden errList = .ok bf)
    (hp : anyExc errHasPermission errList = .ok bp)
    (hmark : bf || bp = true)
    (hd : pyIn "data" body = .ok false)
    (hgate : rc ≠ 0 ∨ threshold ≤ env.snapshotRemaining ∨ 2 ≤ numKeys) :
    (execLoop env threshold numKeys (fuel + 1) rc kIdx pIdx tr).result = none ∧
    (execLoop env threshold numKeys (fuel + 1) rc kIdx pIdx tr).tr.postsMade = tr.postsMade + 1 ∧
    ∀ v : J, (execLoop env threshold numKeys (fuel + 1) rc kIdx pIdx tr).result ≠ some v := by
  have hc : classify200 body = .ok .retNone := by
    simpa using classify200_marker he hsub hiter hf hp hmark hd
  obtain ⟨h1, h2⟩ := execLoop_terminal200 hpost (Or.inr ⟨hc, rfl⟩) hgate
  refine ⟨h1, h2, fun v hv => ?_⟩
  rw [h1] at hv
  exact Option.noConfusion hv

/-- An error object with a permission-denied message and no data, used
by the C2 witness. -/
def c2Err : J := J.obj [("type", J.str "FORBIDDEN"),
  ("message", J.str "You do not have permission to view this")]

/-- A 200 response with marker errors only and no `data` field, used by
the C2 witness. -/
def c2Body : J := J.obj [("errors", J.arr [c2Err])]

/-- An environment whose first data POST yields `c2Body`, used by the
C2 witness. -/
def c2Env : Env := ⟨5000, fun _ => .resp 200 c2Body, fun _ => 0⟩

/-- Witness for C2: marker-only errors and no data, first attempt,
ample quota. -/
theorem marker_errors_without_data_yield_none_witness :
    (execLoop c2Env 100 2 (4 + 1) 0 0 0 ⟨0, 0, 0, []⟩).result = none ∧
    (execLoop c2Env 100 2 (4 + 1) 0 0 0 ⟨0, 0, 0, []⟩).tr.postsMade = (Trace.mk 0 0 0 []).postsMade + 1 ∧
    ∀ v : J, (execLoop c2Env 100 2 (4 + 1) 0 0 0 ⟨0, 0, 0, []⟩).result ≠ some v :=
marker_errors_without_data_yield_none c2Env 100 2 0 0 0 4 ⟨0, 0, 0, []⟩ c2Body
  (J.arr [c2Err]) [c2Err] true true rfl rfl rfl rfl rfl rfl rfl rfl
  (Or.inr (Or.inl (by decide)))

/-- An unclassified error response: neither an authorization marker nor
a rate-limit nor a timeout message. Used for C3. -/
def c3Body : J := J.obj [("errors", J.arr [J.obj [("type", J.str "NOT_FOUND"),
  ("message", J.str "Could not resolve to a Repository")]])]

/-- An environment whose every data POST yields `c3Body`, used for C3. -/
def c3Env : Env := ⟨5000, fun _ => .resp 200 c3Body, fun _ => 0⟩

/-- Counterexample to C3: on a 200 response carrying only an
unclassified error (`NOT_FOUND`, no rate-limit or timeout wording),
`execute_query` does not back off, does not retry and does not end in a
terminal no-result failure; it issues exactly one data POST, performs
no waits, and returns the error-bearing response itself as the
success value (the `return data` fall-through at line 152). -/
theorem unclassified_error_returned_as_success_cex :
    execute_query c3Env 100 2 5 = ⟨some c3Body, ⟨1, 1, 0, []⟩, 0⟩ := rfl

/-- C3 as amended: a 200 response whose `errors` are not authorization
markers and mention neither `rate limit` nor `timeout` is returned
immediately by `execute_query` as the result, errors included, with no
retry consumed and no backoff. -/
theorem unclassified_errors_returned_without_retry
    (env : Env) (threshold numKeys rc kIdx pIdx fuel : Nat) (tr : Trace)
    (body errs : J) (errList : List J)
    (hpost : env.posts pIdx = .resp 200 body)
    (he : pyIn "errors" body = .ok true)
    (hsub : pySub "errors" body = .ok errs)
    (hiter : pyIter errs = .ok errList)
    (hf : anyExc errHasForbidden errList = .ok false)
    (hp : anyExc errHasPermission errList = .ok false)
    (hrl : strHas (lowerStr (pyStr errs)) "rate limit" = false)
    (hto : strHas (lowerStr (pyStr errs)) "timeout" = false)
    (hgate : rc ≠ 0 ∨ threshold ≤ env.snapshotRemaining ∨ 2 ≤ numKeys) :
    (execLoop env threshold numKeys (fuel + 1) rc kIdx pIdx tr).result = some body ∧
    (execLoop env threshold numKeys (fuel + 1) rc kIdx pIdx tr).tr.postsMade = tr.postsMade + 1 :=
execLoop_terminal200 hpost (Or.inl ⟨classify200_other he hsub hiter hf hp hrl hto, rfl⟩) hgate

/-- Witness for the amended C3 at the `NOT_FOUND` response. -/
theorem unclassified_errors_returned_without_retry_witness :
    (execLoop c3Env 100 2 (4 + 1) 0 0 0 ⟨0, 0, 0, []⟩).result = some c3Body ∧
    (execLoop c3Env 100 2 (4 + 1) 0 0 0 ⟨0, 0, 0, []⟩).tr.postsMade = (Trace.mk 0 0 0 []).postsMade + 1 :=
unclassified_errors_returned_without_retry c3Env 100 2 0 0 0 4 ⟨0, 0, 0, []⟩ c3Body
  (J.arr [J.obj [("type", J.str "NOT_FOUND"), ("message", J.str "Could not resolve to a Repository")]])
  [J.obj [("type", J.str "NOT_FOUND"), ("message", J.str "Could not resolve to a Repository")]]
  rfl rfl rfl rfl rfl rfl rfl rfl (Or.inr (Or.inl (by decide)))

/-- Trace carried by either `Step` outcome. -/
def stepTrace : Step → Trace
| .done _ tr _ => tr
| .again _ _ _ tr => tr

lemma execPost_snapshotChecks (env : Env) (numKeys rc kIdx pIdx : Nat) (tr : Trace) :
    (stepTrace (execPost env numKeys rc kIdx pIdx tr)).snapshotChecks = tr.snapshotChecks := by
  cases hps : env.posts pIdx with
  | timeoutExc => simp [execPost, hps, stepTrace]
  | connExc => simp [execPost, hps, stepTrace]
  | otherExc => simp [execPost, hps, stepTrace]
  | resp s body =>
    simp only [execPost, hps]
    repeat' split
    all_goals simp [stepTrace]

lemma execPost_again_rc {env : Env} {numKeys rc kIdx pIdx : Nat} {tr : Trace}
    {rc' k' p' : Nat} {tr' : Trace}
    (h : execPost env numKeys rc kIdx pIdx tr = .again rc' k' p' tr') : rc' = rc + 1 := by
  cases hps : env.posts pIdx with
  | timeoutExc => rw [execPost, hps] at h; cases h; rfl
  | connExc => rw [execPost, hps] at h; cases h; rfl
  | otherExc => rw [execPost, hps] at h; cases h; rfl
  | resp s body =>
    rw [execPost, hps] at h
    repeat' split at h
    all_goals first
    | (cases h; rfl)
    | cases h

lemma execLoop_snapshot_of_pos (env : Env) (threshold numKeys : Nat) :
    ∀ fuel rc kIdx pIdx tr, 1 ≤ rc →
      (execLoop env threshold numKeys fuel rc kIdx pIdx tr).tr.snapshotChecks = tr.snapshotChecks := by
  intro fuel
  induction fuel with
  | zero => intro rc kIdx pIdx tr _; rfl
  | succ fuel ih =>
    intro rc kIdx pIdx tr hrc
    have hbeq : (rc == 0) = false := by
      simp only [beq_eq_false_iff_ne, ne_eq]
      omega
    rw [execLoop]
    simp only [hbeq, Bool.false_eq_true, if_false]
    cases hstep : execPost env numKeys rc kIdx pIdx tr with
    | done res tr' k =>
      have := execPost_snapshotChecks env numKeys rc kIdx pIdx tr
      rw [hstep] at this
      simpa [stepTrace] using this
    | again rc' k' p' tr' =>
      have hsnap := execPost_snapshotChecks env numKeys rc kIdx pIdx tr
      rw [hstep] at hsnap
      simp only [stepTrace] at hsnap
      have hrc' : rc' = rc + 1 := execPost_again_rc hstep
      simp only []
      rw [ih rc' k' p' tr' (by omega)]
      exact hsnap

/-- C5: `execute_query` consults the rate-limit snapshot only on the
first attempt of a logical call — over every environment and retry
budget the whole call takes at most one snapshot — and in the low-quota
scenario with a pool of two keys it rotates to the other key and issues
the data call immediately, completing the call with exactly one
snapshot, one rotation and one POST, no second snapshot before the data
call. -/
theorem snapshot_only_first_attempt (env : Env) (threshold m : Nat) (body : J) :
    (∀ numKeys, (execute_query env threshold numKeys m).tr.snapshotChecks ≤ 1) ∧
    (env.snapshotRemaining < threshold → env.posts 0 = .resp 200 body →
      classify200 body = .ok .retData →
      execute_query env threshold 2 (m + 1) = ⟨some body, ⟨1, 1, 1, []⟩, 1⟩) := by
  constructor
  · intro numKeys
    cases m with
    | zero => exact Nat.zero_le 1
    | succ fuel =>
      rw [execute_query, execLoop]
      simp only [beq_self_eq_true, if_true]
      by_cases hlow : env.snapshotRemaining < threshold
      · simp only [hlow, if_true]
        by_cases hk : numKeys ≤ 1
        · simp only [hk, if_true]
          rw [execLoop_snapshot_of_pos env threshold numKeys fuel 1 0 0 _ (by omega)]
        · simp only [hk, if_false]
          cases hstep : execPost env numKeys 0 ((0 + 1) % numKeys) 0 ⟨0, 0 + 1, 0 + 1, []⟩ with
          | done res tr' k =>
            have := execPost_snapshotChecks env numKeys 0 ((0 + 1) % numKeys) 0 ⟨0, 0 + 1, 0 + 1, []⟩
            rw [hstep] at this
            simp only [stepTrace] at this
            simp only [hstep]
            omega
          | again rc' k' p' tr' =>
            have hsnap := execPost_snapshotChecks env numKeys 0 ((0 + 1) % numKeys) 0 ⟨0, 0 + 1, 0 + 1, []⟩
            rw [hstep] at hsnap
            simp only [stepTrace] at hsnap
            have hrc' : rc' = 0 + 1 := execPost_again_rc hstep
            simp only [hstep]
            rw [execLoop_snapshot_of_pos env threshold numKeys fuel rc' k' p' tr' (by omega)]
            omega
      · simp only [hlow, if_false]
        cases hstep : execPost env numKeys 0 0 0 ⟨0, 0 + 1, 0, []⟩ with
        | done res tr' k =>
          have := execPost_snapshotChecks env numKeys 0 0 0 ⟨0, 0 + 1, 0, []⟩
          rw [hstep] at this
          simp only [stepTrace] at this
          simp only [hstep]
          omega
        | again rc' k' p' tr' =>
          have hsnap := execPost_snapshotChecks env numKeys 0 0 0 ⟨0, 0 + 1, 0, []⟩
          rw [hstep] at hsnap
          simp only [stepTrace] at hsnap
          have hrc' : rc' = 0 + 1 := execPost_again_rc hstep
          simp only [hstep]
          rw [execLoop_snapshot_of_pos env threshold numKeys fuel rc' k' p' tr' (by omega)]
          omega
  · intro hlow hpost hc
    rw [execute_query, execLoop]
    simp only [beq_self_eq_true, if_true, hlow]
    rw [execPost_done200 hpost (Or.inl ⟨hc, rfl⟩)]
    simp

/-- A quota-exhausted two-key scenario for the C5 witness: remaining 50
below threshold 100, and a plain successful page as the first POST. -/
def c5Env : Env := ⟨50, fun _ => .resp 200 (J.obj [("data", J.obj [("viewer", J.null)])]), fun _ => 0⟩

/-- Witness for C5 in the pool-of-two low-quota scenario. -/
theorem snapshot_only_first_attempt_witness :
    (execute_query c5Env 100 2 5).tr.snapshotChecks ≤ 1 ∧
    execute_query c5Env 100 2 (4 + 1) = ⟨some (J.obj [("data", J.obj [("viewer", J.null)])]), ⟨1, 1, 1, []⟩, 1⟩ :=
⟨(snapshot_only_first_attempt c5Env 100 5 (J.obj [("data", J.obj [("viewer", J.null)])])).1 2,
 (snapshot_only_first_attempt c5Env 100 4 (J.obj [("data", J.obj [("viewer", J.null)])])).2
   (by decide) rfl rfl⟩

lemma pagLoop_guard_false {fetch : Nat → Option J} {path : List String} {mp : Option Nat}
    {fuel : Nat} {hasNext : Bool} {cursor : J} {pc cf : Nat}
    {vars : List (String × J)} {acc : List J} {fIdx : Nat} {ws : List J}
    (hg : (hasNext && pagGuard mp pc) = false) :
    pagLoop fetch path mp (fuel + 1) hasNext cursor pc cf vars acc fIdx ws =
      .ok ⟨acc, vars, cursor, fIdx, ws⟩ := by
  rw [pagLoop]
  simp [hg]

lemma pagLoop_fail_step {fetch : Nat → Option J} {path : List String} {mp : Option Nat}
    {fuel : Nat} {hasNext : Bool} {cursor : J} {pc cf : Nat}
    {vars : List (String × J)} {acc : List J} {fIdx : Nat} {ws : List J}
    (hg : (hasNext && pagGuard mp pc) = true)
    (hclean : failsAt fetch fIdx = true) :
    pagLoop fetch path mp (fuel + 1) hasNext cursor pc cf vars acc fIdx ws =
      (if 3 ≤ cf + 1 then
        .ok ⟨acc, cursorWrite cursor vars, cursor, fIdx + 1,
          if pyTruthy cursor then ws ++ [cursor] else ws⟩
      else
        pagLoop fetch path mp fuel hasNext cursor pc (cf + 1) (cursorWrite cursor vars) acc (fIdx + 1)
          (if pyTruthy cursor then ws ++ [cursor] else ws)) := by
  cases hfe : fetch fIdx with
  | none =>
    rw [pagLoop]
    simp [hg, hfe]
  | some v =>
    simp only [failsAt, hfe] at hclean
    by_cases ht : pyTruthy v = true
    · rw [if_pos ht] at hclean
      have hin : pyIn "data" v = .ok false := by
        cases hin : pyIn "data" v with
        | error u => rw [hin] at hclean; cases hclean
        | ok b =>
          cases b with
          | false => rfl
          | true => rw [hin] at hclean; cases hclean
      rw [pagLoop]
      simp [hg, hfe, ht, hin]
    · have ht' : pyTruthy v = false := by
        cases h : pyTruthy v
        · rfl
        · exact absurd h ht
      rw [pagLoop]
      simp [hg, hfe, ht']

lemma pagLoop_success_step {fetch : Nat → Option J} {path : List String} {mp : Option Nat}
    {fuel : Nat} {hasNext : Bool} {cursor : J} {pc cf : Nat}
    {vars : List (String × J)} {acc : List J} {fIdx : Nat} {ws : List J} {v : J}
    (hg : (hasNext && pagGuard mp pc) = true)
    (hu : usableAt fetch fIdx = some v) :
    pagLoop fetch path mp (fuel + 1) hasNext cursor pc cf vars acc fIdx ws =
      (match pySub "data" v with
      | .error u => .error u
      | .ok dataVal =>
        match pageStep path dataVal cursor with
        | .error u => .error u
        | .ok (hasNext', cursor') =>
          pagLoop fetch path mp fuel hasNext' cursor' (pc + 1) 0 (cursorWrite cursor vars)
            (acc ++ [v]) (fIdx + 1) (if pyTruthy cursor then ws ++ [cursor] else ws)) := by
  cases hfe : fetch fIdx with
  | none => rw [usableAt, hfe] at hu; cases hu
  | some w =>
    simp only [usableAt, hfe] at hu
    by_cases ht : pyTruthy w = true
    · rw [if_pos ht] at hu
      cases hin : pyIn "data" w with
      | error u => rw [hin] at hu; cases hu
      | ok b =>
        cases b with
        | false => rw [hin] at hu; cases hu
        | true =>
          rw [hin] at hu
          cases hu
          rw [pagLoop]
          simp [hg, hfe, ht, hin]
    · have ht' : pyTruthy w = false := by
        cases h : pyTruthy w
        · rfl
        · exact absurd h ht
      rw [ht'] at hu
      simp at hu

lemma pagLoop_raise_step {fetch : Nat → Option J} {path : List String} {mp : Option Nat}
    {fuel : Nat} {hasNext : Bool} {cursor : J} {pc cf : Nat}
    {vars : List (String × J)} {acc : List J} {fIdx : Nat} {ws : List J} {v : J} {u : Unit}
    (hg : (hasNext && pagGuard mp pc) = true)
    (hfe : fetch fIdx = some v) (ht : pyTruthy v = true)
    (hin : pyIn "data" v = .error u) :
    pagLoop fetch path mp (fuel + 1) hasNext cursor pc cf vars acc fIdx ws = .error u := by
  rw [pagLoop]
  simp [hg, hfe, ht, hin]

lemma pagLoop_success_step2 {fetch : Nat → Option J} {path : List String} {mp : Option Nat}
    {fuel : Nat} {hasNext : Bool} {cursor : J} {pc cf : Nat}
    {vars : List (String × J)} {acc : List J} {fIdx : Nat} {ws : List J}
    {v dv c' : J} {hn' : Bool}
    (hg : (hasNext && pagGuard mp pc) = true)
    (hu : usableAt fetch fIdx = some v)
    (hsub : pySub "data" v = .ok dv)
    (hps : pageStep path dv cursor = .ok (hn', c')) :
    pagLoop fetch path mp (fuel + 1) hasNext cursor pc cf vars acc fIdx ws =
      pagLoop fetch path mp fuel hn' c' (pc + 1) 0 (cursorWrite cursor vars) (acc ++ [v]) (fIdx + 1)
        (if pyTruthy cursor then ws ++ [cursor] else ws) := by
  rw [pagLoop_success_step hg hu]
  simp only [hsub, hps]

lemma pagLoop_success_err_sub {fetch : Nat → Option J} {path : List String} {mp : Option Nat}
    {fuel : Nat} {hasNext : Bool} {cursor : J} {pc cf : Nat}
    {vars : List (String × J)} {acc : List J} {fIdx : Nat} {ws : List J} {v : J} {u : Unit}
    (hg : (hasNext && pagGuard mp pc) = true)
    (hu : usableAt fetch fIdx = some v)
    (hsub : pySub "data" v = .error u) :
    pagLoop fetch path mp (fuel + 1) hasNext cursor pc cf vars acc fIdx ws = .error u := by
  rw [pagLoop_success_step hg hu]
  simp only [hsub]

lemma pagLoop_success_err_page {fetch : Nat → Option J} {path : List String} {mp : Option Nat}
    {fuel : Nat} {hasNext : Bool} {cursor : J} {pc cf : Nat}
    {vars : List (String × J)} {acc : List J} {fIdx : Nat} {ws : List J} {v dv : J} {u : Unit}
    (hg : (hasNext && pagGuard mp pc) = true)
    (hu : usableAt fetch fIdx = some v)
    (hsub : pySub "data" v = .ok dv)
    (hps : pageStep path dv cursor = .error u) :
    pagLoop fetch path mp (fuel + 1) hasNext cursor pc cf vars acc fIdx ws = .error u := by
  rw [pagLoop_success_step hg hu]
  simp only [hsub, hps]

lemma failsAt_usableAt_none {fetch : Nat → Option J} {i : Nat}
    (h : failsAt fetch i = true) : usableAt fetch i = none := by
  cases hfe : fetch i with
  | none => simp [usableAt, hfe]
  | some v =>
    simp only [failsAt, hfe] at h
    by_cases ht : pyTruthy v = true
    · rw [if_pos ht] at h
      cases hin : pyIn "data" v with
      | error u => rw [hin] at h; cases h
      | ok b =>
        cases b with
        | false => simp [usableAt, hfe, ht, hin]
        | true => rw [hin] at h; cases h
    · have ht' : pyTruthy v = false := by
        cases hb : pyTruthy v
        · rfl
        · exact absurd hb ht
      simp [usableAt, hfe, ht']

lemma fetch_trichotomy (fetch : Nat → Option J) (i : Nat) :
    (∃ v, usableAt fetch i = some v) ∨
    failsAt fetch i = true ∨
    (∃ v u, fetch i = some v ∧ pyTruthy v = true ∧ pyIn "data" v = .error u) := by
  cases hfe : fetch i with
  | none => exact Or.inr (Or.inl (by simp [failsAt, hfe]))
  | some v =>
    by_cases ht : pyTruthy v = true
    · cases hin : pyIn "data" v with
      | error u => exact Or.inr (Or.inr ⟨v, u, rfl, ht, hin⟩)
      | ok b =>
        cases b with
        | true => exact Or.inl ⟨v, by simp [usableAt, hfe, ht, hin]⟩
        | false => exact Or.inr (Or.inl (by simp [failsAt, hfe, ht, hin]))
    · have ht' : pyTruthy v = false := by
        cases hb : pyTruthy v
        · rfl
        · exact absurd hb ht
      exact Or.inr (Or.inl (by simp [failsAt, hfe, ht']))

lemma pagLoop_pages_spec (fetch : Nat → Option J) (path : List String) (mp : Option Nat) :
    ∀ fuel hasNext cursor pc cf vars acc fIdx ws out,
      pagLoop fetch path mp fuel hasNext cursor pc cf vars acc fIdx ws = .ok out →
      fIdx ≤ out.fetches ∧ out.pages = acc ++ usableIn fetch fIdx (out.fetches - fIdx) := by
  intro fuel
  induction fuel with
  | zero =>
    intro hasNext cursor pc cf vars acc fIdx ws out h
    rw [pagLoop] at h
    cases h
    simp [usableIn]
  | succ fuel ih =>
    intro hasNext cursor pc cf vars acc fIdx ws out h
    by_cases hg : (hasNext && pagGuard mp pc) = true
    · rcases fetch_trichotomy fetch fIdx with ⟨v, hu⟩ | hclean | ⟨v, u, hfe, ht, hin⟩
      · cases hsub : pySub "data" v with
        | error u =>
          rw [pagLoop_success_err_sub hg hu hsub] at h
          cases h
        | ok dv =>
          cases hps : pageStep path dv cursor with
          | error u =>
            rw [pagLoop_success_err_page hg hu hsub hps] at h
            cases h
          | ok pr =>
            obtain ⟨hn', c'⟩ := pr
            rw [pagLoop_success_step2 hg hu hsub hps] at h
            obtain ⟨hle, hpages⟩ := ih _ _ _ _ _ _ _ _ _ h
            refine ⟨by omega, ?_⟩
            rw [hpages]
            have hk : out.fetches - fIdx = (out.fetches - (fIdx + 1)) + 1 := by omega
            rw [hk]
            simp only [usableIn, hu]
            simp [List.append_assoc]
      · have hua := failsAt_usableAt_none hclean
        rw [pagLoop_fail_step hg hclean] at h
        by_cases h3 : 3 ≤ cf + 1
        · rw [if_pos h3] at h
          cases h
          refine ⟨Nat.le_succ fIdx, ?_⟩
          show acc = acc ++ usableIn fetch fIdx (fIdx + 1 - fIdx)
          have hk : fIdx + 1 - fIdx = 0 + 1 := by omega
          rw [hk]
          simp [usableIn, hua]
        · rw [if_neg h3] at h
          obtain ⟨hle, hpages⟩ := ih _ _ _ _ _ _ _ _ _ h
          refine ⟨by omega, ?_⟩
          rw [hpages]
          have hk : out.fetches - fIdx = (out.fetches - (fIdx + 1)) + 1 := by omega
          rw [hk]
          simp only [usableIn, hua]
      · rw [pagLoop_raise_step hg hfe ht hin] at h
        cases h
    · have hg' : (hasNext && pagGuard mp pc) = false := by
        cases hb : hasNext && pagGuard mp pc
        · rfl
        · exact absurd hb hg
      rw [pagLoop_guard_false hg'] at h
      cases h
      simp [usableIn]

lemma pagLoop_length_spec (fetch : Nat → Option J) (path : List String) (m : Nat) :
    ∀ fuel hasNext cursor cf vars acc fIdx ws out,
      pagLoop fetch path (some m) fuel hasNext cursor acc.length cf vars acc fIdx ws = .ok out →
      acc.length ≤ m → out.pages.length ≤ m := by
  intro fuel
  induction fuel with
  | zero =>
    intro hasNext cursor cf vars acc fIdx ws out h hlen
    rw [pagLoop] at h
    cases h
    exact hlen
  | succ fuel ih =>
    intro hasNext cursor cf vars acc fIdx ws out h hlen
    by_cases hg : (hasNext && pagGuard (some m) acc.length) = true
    · have hlt : acc.length < m := by
        have := (Bool.and_eq_true _ _).mp hg
        simpa [pagGuard] using this.2
      rcases fetch_trichotomy fetch fIdx with ⟨v, hu⟩ | hclean | ⟨v, u, hfe, ht, hin⟩
      · cases hsub : pySub "data" v with
        | error u =>
          rw [pagLoop_success_err_sub hg hu hsub] at h
          cases h
        | ok dv =>
          cases hps : pageStep path dv cursor with
          | error u =>
            rw [pagLoop_success_err_page hg hu hsub hps] at h
            cases h
          | ok pr =>
            obtain ⟨hn', c'⟩ := pr
            rw [pagLoop_success_step2 hg hu hsub hps] at h
            have hlen' : (acc ++ [v]).length = acc.length + 1 := by simp
            rw [← hlen'] at h
            exact ih _ _ _ _ _ _ _ _ h (by simp; omega)
      · rw [pagLoop_fail_step hg hclean] at h
        by_cases h3 : 3 ≤ cf + 1
        · rw [if_pos h3] at h
          cases h
          exact hlen
        · rw [if_neg h3] at h
          exact ih _ _ _ _ _ _ _ _ h hlen
      · rw [pagLoop_raise_step hg hfe ht hin] at h
        cases h
    · have hg' : (hasNext && pagGuard (some m) acc.length) = false := by
        cases hb : hasNext && pagGuard (some m) acc.length
        · rfl
        · exact absurd hb hg
      rw [pagLoop_guard_false hg'] at h
      cases h
      exact hlen

/-- C7: whenever `paginate_query` with a finite page cap `m` returns
normally, the returned sequence has length at most `m`, and it consists
exactly of the usable page payloads among the `execute_query` results
it fetched, appended in fetch order. -/
theorem paginate_length_and_order (fetch : Nat → Option J) (path : List String)
    (m fuel : Nat) (vars : List (String × J)) (out : PagOut)
    (h : paginate_query fetch path (some m) vars fuel = .ok out) :
    out.pages.length ≤ m ∧ out.pages = usableIn fetch 0 out.fetches := by
  constructor
  · exact pagLoop_length_spec fetch path m fuel true J.null 0 vars [] 0 [] out h (Nat.zero_le m)
  · have := (pagLoop_pages_spec fetch path (some m) fuel true J.null 0 0 vars [] 0 [] out h).2
    simpa using this

/-- A fetcher returning one final page then nothing, used by the C7
witness. -/
def c7Fetch : Nat → Option J
| 0 => some (J.obj [("data", J.obj [("search", J.obj [("pageInfo",
    J.obj [("hasNextPage", J.bool false), ("endCursor", J.str "abc")])])])])
| _ => none

/-- Witness for C7 on a single-page run with cap 5. -/
theorem paginate_length_and_order_witness :
    paginate_query c7Fetch ["search"] (some 5) [] 10 =
      .ok ⟨[J.obj [("data", J.obj [("search", J.obj [("pageInfo",
        J.obj [("hasNextPage", J.bool false), ("endCursor", J.str "abc")])])])]], [], J.str "abc", 1, []⟩ ∧
    ((⟨[J.obj [("data", J.obj [("search", J.obj [("pageInfo",
        J.obj [("hasNextPage", J.bool false), ("endCursor", J.str "abc")])])])]], [], J.str "abc", 1, []⟩ : PagOut).pages.length ≤ 5 ∧
      (⟨[J.obj [("data", J.obj [("search", J.obj [("pageInfo",
        J.obj [("hasNextPage", J.bool false), ("endCursor", J.str "abc")])])])]], [], J.str "abc", 1, []⟩ : PagOut).pages =
        usableIn c7Fetch 0 (⟨[J.obj [("data", J.obj [("search", J.obj [("pageInfo",
        J.obj [("hasNextPage", J.bool false), ("endCursor", J.str "abc")])])])]], [], J.str "abc", 1, []⟩ : PagOut).fetches) :=
⟨rfl, paginate_length_and_order c7Fetch ["search"] 5 10 [] _ rfl⟩

/-- C8: the paginator's circuit breaker and failure counter. First,
from a clean state (`consecutive_failures = 0`), three consecutive
clean fetch failures at the same cursor make `paginate_query` stop and
return exactly the pages accumulated so far, without raising, after
exactly three fetch attempts. Second, a successful fetch resets the
consecutive-failure counter to 0 for the continuation regardless of its
incoming value. -/
theorem paginate_circuit_breaker_and_reset
    (fetch : Nat → Option J) (path : List String) (mp : Option Nat)
    (fuel : Nat) (cursor : J) (pc cf : Nat) (vars : List (String × J))
    (acc : List J) (fIdx : Nat) (ws : List J) :
    (failsAt fetch fIdx = true → failsAt fetch (fIdx + 1) = true →
      failsAt fetch (fIdx + 2) = true → pagGuard mp pc = true →
      (pagLoop fetch path mp (fuel + 3) true cursor pc 0 vars acc fIdx ws).map
        (fun o => (o.pages, o.fetches)) = .ok (acc, fIdx + 3)) ∧
    (∀ (v dv c' : J) (hn' : Bool), usableAt fetch fIdx = some v →
      pySub "data" v = .ok dv → pageStep path dv cursor = .ok (hn', c') →
      pagGuard mp pc = true →
      pagLoop fetch path mp (fuel + 1) true cursor pc cf vars acc fIdx ws =
        pagLoop fetch path mp fuel hn' c' (pc + 1) 0 (cursorWrite cursor vars)
          (acc ++ [v]) (fIdx + 1) (if pyTruthy cursor then ws ++ [cursor] else ws)) := by
  constructor
  · intro h1 h2 h3 hguard
    have hg : (true && pagGuard mp pc) = true := by simp [hguard]
    rw [show fuel + 3 = (fuel + 2) + 1 by omega]
    rw [pagLoop_fail_step hg h1, if_neg (by omega)]
    rw [show fuel + 2 = (fuel + 1) + 1 by omega]
    rw [pagLoop_fail_step hg h2, if_neg (by omega)]
    rw [pagLoop_fail_step hg h3, if_pos (by omega)]
    simp [Except.map]
  · intro v dv c' hn' hu hsub hps hguard
    exact pagLoop_success_step2 (by simp [hguard]) hu hsub hps

/-- An always-failing fetcher for the first half of the C8 witness. -/
def c8FailFetch : Nat → Option J := fun _ => none

/-- A single-page fetcher for the second half of the C8 witness. -/
def c8PageFetch : Nat → Option J :=
fun _ => some (J.obj [("data", J.obj [("pageInfo", J.obj [("hasNextPage", J.bool false)])])])

/-- Witness for C8: three failures trip the breaker with no pages; a
success recurses with the counter reset to 0. -/
theorem paginate_circuit_breaker_and_reset_witness :
    ((pagLoop c8FailFetch [] none (2 + 3) true J.null 0 0 [] [] 0 []).map
      (fun o => (o.pages, o.fetches)) = .ok ([], 0 + 3)) ∧
    (pagLoop c8PageFetch [] none (2 + 1) true J.null 0 5 [] [] 0 [] =
      pagLoop c8PageFetch [] none 2 false J.null (0 + 1) 0 (cursorWrite J.null [])
        ([] ++ [J.obj [("data", J.obj [("pageInfo", J.obj [("hasNextPage", J.bool false)])])]])
        (0 + 1) (if pyTruthy J.null then [] ++ [J.null] else [])) :=
⟨(paginate_circuit_breaker_and_reset c8FailFetch [] none 2 J.null 0 0 [] [] 0 []).1
    rfl rfl rfl rfl,
 (paginate_circuit_breaker_and_reset c8PageFetch [] none 2 J.null 0 5 [] [] 0 []).2
    (J.obj [("data", J.obj [("pageInfo", J.obj [("hasNextPage", J.bool false)])])])
    (J.obj [("pageInfo", J.obj [("hasNextPage", J.bool false)])]) J.null false
    rfl rfl rfl rfl⟩

/-- An environment whose data POST succeeds with the body
`\x7b'data': None\x7d`, used for C9. -/
def c9Env : Env := ⟨5000, fun _ => .resp 200 (J.obj [("data", J.null)]), fun _ => 0⟩

/-- The results `paginate_query` sees when driven by `execute_query`
against `c9Env`, used for C9. -/
def c9Fetch : Nat → Option J := fun _ => (execute_query c9Env 100 2 5).result

/-- Counterexample to C9: `execute_query` happily returns the 200 body
`\x7b'data': None\x7d` as a result, and `paginate_query`, walking
`page_info_path` into that `None`, raises a `TypeError`
(`'repository' in None` at line 243) that propagates to the caller
instead of an absent result. -/
theorem paginate_propagates_type_error_cex :
    c9Fetch 0 = some (J.obj [("data", J.null)]) ∧
    paginate_query c9Fetch ["repository"] none [] 10 = .error () :=
⟨rfl, rfl⟩

lemma usableAt_elim {fetch : Nat → Option J} {i : Nat} {v : J}
    (hu : usableAt fetch i = some v) :
    fetch i = some v ∧ pyTruthy v = true ∧ pyIn "data" v = .ok true := by
  cases hfe : fetch i with
  | none => rw [usableAt, hfe] at hu; cases hu
  | some w =>
    simp only [usableAt, hfe] at hu
    by_cases ht : pyTruthy w = true
    · rw [if_pos ht] at hu
      cases hin : pyIn "data" w with
      | error u => rw [hin] at hu; cases hu
      | ok b =>
        cases b with
        | false => rw [hin] at hu; cases hu
        | true => rw [hin] at hu; cases hu; exact ⟨rfl, ht, hin⟩
    · have ht' : pyTruthy w = false := by
        cases hb : pyTruthy w
        · rfl
        · exact absurd hb ht
      rw [ht'] at hu
      simp at hu

lemma pageStep_ok_any_cursor {path : List String} {dv : J} {p : Bool × J}
    (h : pageStep path dv J.null = .ok p) (cursor : J) :
    ∃ q, pageStep path dv cursor = .ok q := by
  cases hw : walkPath path dv with
  | error u => rw [pageStep, hw] at h; cases h
  | ok o =>
    cases o with
    | none => exact ⟨(false, cursor), by simp [pageStep, hw]⟩
    | some pg =>
      cases hin : pyIn "pageInfo" pg with
      | error u => simp only [pageStep, hw, hin] at h; cases h
      | ok b =>
        cases b with
        | false => exact ⟨(false, cursor), by simp [pageStep, hw, hin]⟩
        | true =>
          cases hsubI : pySub "pageInfo" pg with
          | error u => simp only [pageStep, hw, hin, hsubI] at h; cases h
          | ok info =>
            cases hget1 : pyGet "hasNextPage" (J.bool false) info with
            | error u => simp only [pageStep, hw, hin, hsubI, hget1] at h; cases h
            | ok hn =>
              cases hget2 : pyGet "endCursor" J.null info with
              | error u => simp only [pageStep, hw, hin, hsubI, hget1, hget2] at h; cases h
              | ok ec =>
                exact ⟨(pyTruthy hn, ec), by simp [pageStep, hw, hin, hsubI, hget1, hget2]⟩

lemma pagLoop_ok_of_safe (fetch : Nat → Option J) (path : List String) (mp : Option Nat)
    (hsafe : ∀ i, fetchSafe path (fetch i) = true) :
    ∀ fuel hasNext cursor pc cf vars acc fIdx ws,
      ∃ out, pagLoop fetch path mp fuel hasNext cursor pc cf vars acc fIdx ws = .ok out := by
  intro fuel
  induction fuel with
  | zero => intro hasNext cursor pc cf vars acc fIdx ws; exact ⟨_, rfl⟩
  | succ fuel ih =>
    intro hasNext cursor pc cf vars acc fIdx ws
    by_cases hg : (hasNext && pagGuard mp pc) = true
    · rcases fetch_trichotomy fetch fIdx with ⟨v, hu⟩ | hclean | ⟨v, u, hfe, ht, hin⟩
      · obtain ⟨hfe, ht, hin⟩ := usableAt_elim hu
        have hs := hsafe fIdx
        rw [hfe] at hs
        cases hsub : pySub "data" v with
        | error u => simp [fetchSafe, ht, hin, hsub] at hs
        | ok dv =>
          cases hpn : pageStep path dv J.null with
          | error u => simp [fetchSafe, ht, hin, hsub, hpn] at hs
          | ok p =>
            obtain ⟨⟨hn', c'⟩, hps⟩ := pageStep_ok_any_cursor hpn cursor
            rw [pagLoop_success_step2 hg hu hsub hps]
            exact ih _ _ _ _ _ _ _ _
      · rw [pagLoop_fail_step hg hclean]
        by_cases h3 : 3 ≤ cf + 1
        · rw [if_pos h3]
          exact ⟨_, rfl⟩
        · rw [if_neg h3]
          exact ih _ _ _ _ _ _ _ _
      · have hs := hsafe fIdx
        rw [hfe] at hs
        simp [fetchSafe, ht, hin] at hs
    · have hg' : (hasNext && pagGuard mp pc) = false := by
        cases hb : hasNext && pagGuard mp pc
        · rfl
        · exact absurd hb hg
      rw [pagLoop_guard_false hg']
      exact ⟨_, rfl⟩

/-- C9 as amended: the executor really does absorb every failure — the
embedded `execute_query` returns only a result or an absent value, its
exception handlers all map to retries — but the paginator does not: it
raises no exception only when every fetched result is `None` or an
object whose `data` traversal along `page_info_path` (and its
`pageInfo` holder) stays within dict/list/string shapes; a null or
non-object along that walk makes it propagate a `TypeError`. -/
theorem executor_absorbs_and_paginator_safe
    (fetch : Nat → Option J) (path : List String) (mp : Option Nat)
    (vars : List (String × J)) (fuel : Nat) (env : Env) (threshold numKeys maxRetries : Nat)
    (hsafe : ∀ i, fetchSafe path (fetch i) = true) :
    ((execute_query env threshold numKeys maxRetries).result = none ∨
      ∃ j, (execute_query env threshold numKeys maxRetries).result = some j) ∧
    ∃ out, paginate_query fetch path mp vars fuel = .ok out := by
  refine ⟨?_, pagLoop_ok_of_safe fetch path mp hsafe fuel true J.null 0 0 vars [] 0 []⟩
  cases h : (execute_query env threshold numKeys maxRetries).result with
  | none => exact Or.inl rfl
  | some j => exact Or.inr ⟨j, rfl⟩

/-- Witness for the amended C9: an always-`None` fetcher is safe and the
paginator completes without raising. -/
theorem executor_absorbs_and_paginator_safe_witness :
    ((execute_query c9Env 100 2 5).result = none ∨
      ∃ j, (execute_query c9Env 100 2 5).result = some j) ∧
    ∃ out, paginate_query (fun _ => none) ["repository"] none [] 4 = .ok out :=
executor_absorbs_and_paginator_safe (fun _ => none) ["repository"] none [] 4 c9Env 100 2 5
  (fun _ => rfl)

/-- A fetcher returning one final page whose `endCursor` is the
non-null string `abc`, used for the C10 counterexample. -/
def c10Fetch : Nat → Option J
| 0 => some (J.obj [("data", J.obj [("search", J.obj [("pageInfo",
    J.obj [("hasNextPage", J.bool false), ("endCursor", J.str "abc")])])])])
| _ => none

/-- Counterexample to C10: the final page's non-null cursor `abc` is
obtained (it is the final value of the `cursor` variable) but is never
written into the caller's `variables` dict — the write at line 220 runs
only at the top of a subsequent iteration, and `hasNextPage = False`
ends the loop first. The returned `variables` dict is still the empty
dict the caller passed in, with no `after` key, and the ghost write log
is empty. -/
theorem paginate_after_key_cex :
    paginate_query c10Fetch ["search"] none [] 10 =
      .ok ⟨[J.obj [("data", J.obj [("search", J.obj [("pageInfo",
        J.obj [("hasNextPage", J.bool false), ("endCursor", J.str "abc")])])])]],
        [], J.str "abc", 1, []⟩ ∧
    getKey "after" [] = none := ⟨rfl, rfl⟩

lemma setKey_get_same (k : String) (v : J) (fs : List (String × J)) :
    getKey k (setKey k v fs) = some v := by
  induction fs with
  | nil => simp [setKey, getKey]
  | cons p rest ih =>
    obtain ⟨k', v'⟩ := p
    by_cases h : k' = k
    · subst h
      simp [setKey, getKey]
    · rw [setKey, if_neg (by simp [h])]
      unfold getKey
      rw [List.find?_cons_of_neg _ (by simp [h])]
      exact ih

lemma setKey_get_other {k k' : String} (hne : k' ≠ k) (v : J) (fs : List (String × J)) :
    getKey k' (setKey k v fs) = getKey k' fs := by
  induction fs with
  | nil => simp [setKey, getKey, Ne.symm hne]
  | cons p rest ih =>
    obtain ⟨k₀, v₀⟩ := p
    by_cases h : k₀ = k
    · subst h
      simp [setKey, getKey, Ne.symm hne]
    · by_cases h' : k₀ = k'
      · subst h'
        rw [setKey, if_neg (by simp [h])]
        unfold getKey
        rw [List.find?_cons_of_pos _ (by simp), List.find?_cons_of_pos _ (by simp)]
      · rw [setKey, if_neg (by simp [h])]
        unfold getKey
        rw [List.find?_cons_of_neg _ (by simp [h']), List.find?_cons_of_neg _ (by simp [h'])]
        exact ih

lemma getLast?_append_singleton (l : List J) (a : J) : (l ++ [a]).getLast? = some a := by
  rw [List.getLast?_append_cons]
  rfl

lemma after_key_compose {cursor : J} {vars : List (String × J)} {ws : List J} {out : PagOut}
    (hframe : ∀ k, k ≠ "after" → getKey k out.vars = getKey k (cursorWrite cursor vars))
    (hdisj : out.writes = (if pyTruthy cursor then ws ++ [cursor] else ws) ∧
               out.vars = cursorWrite cursor vars ∨
             ∃ c, out.writes.getLast? = some c ∧ getKey "after" out.vars = some c ∧
               pyTruthy c = true) :
    (∀ k, k ≠ "after" → getKey k out.vars = getKey k vars) ∧
    (out.writes = ws ∧ out.vars = vars ∨
     ∃ c, out.writes.getLast? = some c ∧ getKey "after" out.vars = some c ∧
       pyTruthy c = true) := by
  by_cases ht : pyTruthy cursor = true
  · refine ⟨?_, ?_⟩
    · intro k hk
      rw [hframe k hk, cursorWrite, if_pos ht, setKey_get_other hk cursor vars]
    · rcases hdisj with ⟨hw, hv⟩ | hr
      · refine Or.inr ⟨cursor, ?_, ?_, ht⟩
        · rw [hw, if_pos ht]
          exact getLast?_append_singleton ws cursor
        · rw [hv, cursorWrite, if_pos ht]
          exact setKey_get_same "after" cursor vars
      · exact Or.inr hr
  · have ht' : pyTruthy cursor = false := by
      cases hb : pyTruthy cursor
      · rfl
      · exact absurd hb ht
    rw [cursorWrite, if_neg (by rw [ht']; exact Bool.false_ne_true)] at hframe
    refine ⟨hframe, ?_⟩
    rcases hdisj with ⟨hw, hv⟩ | hr
    · rw [if_neg (by rw [ht']; exact Bool.false_ne_true)] at hw
      rw [cursorWrite, if_neg (by rw [ht']; exact Bool.false_ne_true)] at hv
      exact Or.inl ⟨hw, hv⟩
    · exact Or.inr hr

lemma pagLoop_after_invariant (fetch : Nat → Option J) (path : List String) (mp : Option Nat) :
    ∀ fuel hasNext cursor pc cf vars acc fIdx ws out,
      pagLoop fetch path mp fuel hasNext cursor pc cf vars acc fIdx ws = .ok out →
      (∀ k, k ≠ "after" → getKey k out.vars = getKey k vars) ∧
      (out.writes = ws ∧ out.vars = vars ∨
       ∃ c, out.writes.getLast? = some c ∧ getKey "after" out.vars = some c ∧
         pyTruthy c = true) := by
  intro fuel
  induction fuel with
  | zero =>
    intro hasNext cursor pc cf vars acc fIdx ws out h
    rw [pagLoop] at h
    cases h
    exact ⟨fun k _ => rfl, Or.inl ⟨rfl, rfl⟩⟩
  | succ fuel ih =>
    intro hasNext cursor pc cf vars acc fIdx ws out h
    by_cases hg : (hasNext && pagGuard mp pc) = true
    · rcases fetch_trichotomy fetch fIdx with ⟨v, hu⟩ | hclean | ⟨v, u, hfe, ht, hin⟩
      · cases hsub : pySub "data" v with
        | error u =>
          rw [pagLoop_success_err_sub hg hu hsub] at h
          cases h
        | ok dv =>
          cases hps : pageStep path dv cursor with
          | error u =>
            rw [pagLoop_success_err_page hg hu hsub hps] at h
            cases h
          | ok pr =>
            obtain ⟨hn', c'⟩ := pr
            rw [pagLoop_success_step2 hg hu hsub hps] at h
            obtain ⟨hframe, hdisj⟩ := ih _ _ _ _ _ _ _ _ _ h
            exact after_key_compose hframe hdisj
      · rw [pagLoop_fail_step hg hclean] at h
        by_cases h3 : 3 ≤ cf + 1
        · rw [if_pos h3] at h
          cases h
          refine after_key_compose (fun k _ => rfl) (Or.inl ⟨rfl, rfl⟩)
        · rw [if_neg h3] at h
          obtain ⟨hframe, hdisj⟩ := ih _ _ _ _ _ _ _ _ _ h
          exact after_key_compose hframe hdisj
      · rw [pagLoop_raise_step hg hfe ht hin] at h
        cases h
    · have hg' : (hasNext && pagGuard mp pc) = false := by
        cases hb : hasNext && pagGuard mp pc
        · rfl
        · exact absurd hb hg
      rw [pagLoop_guard_false hg'] at h
      cases h
      exact ⟨fun k _ => rfl, Or.inl ⟨rfl, rfl⟩⟩

/-- C10 as amended: `paginate_query` mutates the caller's `variables`
dict in place, but the write happens at the top of each iteration,
before the fetch, and only for a truthy cursor. Hence on a normal
return every key other than `after` is unchanged, and either no cursor
was ever written — the dict comes back exactly as given, with `after`
neither added, removed nor restored — or `after` holds the last cursor
written, i.e. the truthy cursor used by the last cursor-bearing fetch;
the final page's cursor, obtained but never used for a fetch, is not
written. -/
theorem paginate_vars_hold_last_used_cursor
    (fetch : Nat → Option J) (path : List String) (mp : Option Nat)
    (vars : List (String × J)) (fuel : Nat) (out : PagOut)
    (h : paginate_query fetch path mp vars fuel = .ok out) :
    (∀ k, k ≠ "after" → getKey k out.vars = getKey k vars) ∧
    (out.writes = [] ∧ out.vars = vars ∨
     ∃ c, out.writes.getLast? = some c ∧ getKey "after" out.vars = some c ∧
       pyTruthy c = true) :=
pagLoop_after_invariant fetch path mp fuel true J.null 0 0 vars [] 0 [] out h

/-- A two-page fetcher whose first page carries `endCursor = \x22X\x22`
and a next page, used by the C10 witness. -/
def c10TwoPageFetch : Nat → Option J
| 0 => some (J.obj [("data", J.obj [("search", J.obj [("pageInfo",
    J.obj [("hasNextPage", J.bool true), ("endCursor", J.str "X")])])])])
| 1 => some (J.obj [("data", J.obj [("search", J.obj [("pageInfo",
    J.obj [("hasNextPage", J.bool false), ("endCursor", J.str "Y")])])])])
| _ => none

/-- The run of `paginate_query` over `c10TwoPageFetch`: both pages
collected, the cursor `X` written under `after`, the final cursor `Y`
left unwritten. -/
def c10Out : PagOut :=
⟨[J.obj [("data", J.obj [("search", J.obj [("pageInfo",
    J.obj [("hasNextPage", J.bool true), ("endCursor", J.str "X")])])])],
  J.obj [("data", J.obj [("search", J.obj [("pageInfo",
    J.obj [("hasNextPage", J.bool false), ("endCursor", J.str "Y")])])])]],
  [("first", J.num 10), ("after", J.str "X")], J.str "Y", 2, [J.str "X"]⟩

/-- Witness for the amended C10 on a two-page run: the cursor `X` used
by the second fetch ends up under `after`, the caller's other key is
untouched. -/
theorem paginate_vars_hold_last_used_cursor_witness :
    paginate_query c10TwoPageFetch ["search"] none [("first", J.num 10)] 10 = .ok c10Out ∧
    ((∀ k, k ≠ "after" → getKey k c10Out.vars = getKey k [("first", J.num 10)]) ∧
     (c10Out.writes = [] ∧ c10Out.vars = [("first", J.num 10)] ∨
      ∃ c, c10Out.writes.getLast? = some c ∧ getKey "after" c10Out.vars = some c ∧
        pyTruthy c = true)) :=
⟨rfl, paginate_vars_hold_last_used_cursor c10TwoPageFetch ["search"] none
  [("first", J.num 10)] 10 c10Out rfl⟩

end Crawler
